import Mathlib

/-!
Verification of the harbor backend (API-key bound custodial wallets,
quote/purchase/fulfillment flow over tokenized datasets).

The development shallowly embeds the TypeScript source:
* `src/utils/crypto.ts` — AES-256-GCM credential vault (`encryptData` / `decryptData`),
  with the external cipher primitive modelled at its library boundary as an ideal
  authenticated stream cipher (xor keystream + ideal auth tag);
* `src/utils/apiKey.ts` — `validateApiKey` (hash lookup, last-used refresh, usage log);
* `src/routes/dataRoute.ts` — `validateApiKeyMiddleware`, the `/quote` handler and the
  `/datasets` redemption handler (quote cache TTL check, ownership resolution,
  affordability check, sequential purchase/confirm/fetch loop).

External I/O (chain RPC, database, storage gateway) is passed in as explicit
oracles; the redemption handler additionally records a trace of `Event`s
(ownership checks, purchase submissions, confirmation waits, payload fetches)
so that temporal claims become statements about the trace.
-/

namespace Harbor

/-! ## Credential Vault (src/utils/crypto.ts)

A plaintext is a list of bytes (the utf8 bytes of the string in the source).
The AES-256-GCM primitive of the node `crypto` library is external code;
it is modelled at its boundary as an ideal authenticated cipher:
an invertible keyed xor keystream plus an authentication tag that
verifies exactly when key, iv and ciphertext all match. -/

/-- One keystream byte for position `i` under `key` and nonce `iv`
(the concrete mixing function is irrelevant; only invertibility of xor is used). -/
def keystreamByte (key iv i : Nat) : Nat :=
  (key + 31 * iv) ^^^ (i + 17 * iv)

/-- Xor a byte list against the keystream starting at position `i`. -/
def xorKeystream (key iv : Nat) : Nat → List Nat → List Nat
  | _, [] => []
  | i, b :: rest => (b ^^^ keystreamByte key iv i) :: xorKeystream key iv (i + 1) rest

/-- Ideal GCM authentication tag: verifies exactly for the key, iv and
ciphertext it was produced from. -/
structure AuthTag where
  tagKey : Nat
  tagIv : Nat
  tagCiphertext : List Nat
deriving DecidableEq, Repr

/-- Tag produced by the cipher for `(key, iv, ciphertext)`. -/
def computeAuthTag (key iv : Nat) (ct : List Nat) : AuthTag :=
  ⟨key, iv, ct⟩

/-- Return shape of `encryptData` in the source (`EncryptedData` interface). -/
structure EncryptedData where
  encryptedData : List Nat
  iv : Nat
  authTag : AuthTag
deriving DecidableEq, Repr

/-- `encryptData(data)` from src/utils/crypto.ts: encrypt under the process key
with a freshly drawn iv (the randomness `crypto.randomBytes(12)` is passed in
explicitly as `iv`), returning ciphertext, iv and auth tag. -/
def encryptData (key iv : Nat) (data : List Nat) : EncryptedData :=
  let ct := xorKeystream key iv 0 data
  ⟨ct, iv, computeAuthTag key iv ct⟩

/-- `decryptData(encryptedData, iv, authTag)` from src/utils/crypto.ts:
verify the auth tag, then invert the keystream; a tag that does not verify
makes `decipher.final` throw, modelled as `none`. -/
def decryptData (key : Nat) (encryptedData : List Nat) (iv : Nat)
    (authTag : AuthTag) : Option (List Nat) :=
  if authTag = computeAuthTag key iv encryptedData then
    some (xorKeystream key iv 0 encryptedData)
  else
    none

/-! ## API Key Registry (src/utils/apiKey.ts and the middleware in src/routes/dataRoute.ts)

Database rows of the `apiKey` table, with timestamps as `Nat` milliseconds.
The sha256 hash of the library is external; it is passed in as the oracle
`hashKey`.  The prisma `findFirst` with its `where` clause becomes `find?`
over the row list with the same conditions. -/

/-- A persisted `apiKey` row (the fields these routes read). `key` is the
stored hash; the four wallet fields are nullable in the schema. -/
structure DbApiKey where
  id : Nat
  key : String
  isActive : Bool
  expiresAt : Option Nat
  publicKey : Option String
  encryptedPrivateKey : Option String
  keyPairIV : Option String
  keyPairAuthTag : Option String
deriving DecidableEq, Repr

/-- `prisma.apiKey.findFirst({ where: { key: hashedKey, isActive: true,
OR: [{expiresAt: null}, {expiresAt: {gt: now}}] } })`. -/
def findApiKey (rows : List DbApiKey) (now : Nat) (hashedKey : String) : Option DbApiKey :=
  rows.find? fun r =>
    r.key == hashedKey && r.isActive &&
      (match r.expiresAt with
       | none => true
       | some e => now < e)

/-- Oracles consumed by `validateApiKey`: the row table, the clock, the hash
function, and the two fallible writes (`prisma.apiKey.update` of `lastUsed`
and `prisma.apiKeyUsage.create`), each either succeeding or throwing. -/
structure KeyStoreEnv where
  rows : List DbApiKey
  now : Nat
  hashKey : String → String
  updateLastUsed : Nat → Except String Unit
  logUsage : String → Except String Unit

/-- `validateApiKey(apiKey)` from src/utils/apiKey.ts: hash the key, match an
active unexpired row, then refresh `lastUsed` and write a usage row; the whole
body sits in one `try/catch` whose catch returns `false`, so a throw anywhere
(including the two writes) yields `false`. -/
def validateApiKey (env : KeyStoreEnv) (apiKey : String) : Bool :=
  let hashedKey := env.hashKey apiKey
  match findApiKey env.rows env.now hashedKey with
  | some key =>
    match env.updateLastUsed key.id with
    | .error _ => false
    | .ok _ =>
      match env.logUsage hashedKey with
      | .error _ => false
      | .ok _ => true
  | none => false

/-- Javascript truthiness of a nullable string column
(`null`/`undefined` and `""` are falsy). -/
def strTruthy : Option String → Bool
  | none => false
  | some s => !(s == "")

/-- Wallet info attached to the request by the dataRoute middleware. -/
structure WalletInfo where
  address : String
  encryptedPrivateKey : String
  keyPairIV : String
  keyPairAuthTag : String
deriving DecidableEq, Repr

/-- Outcome of `validateApiKeyMiddleware` in src/routes/dataRoute.ts:
a 401 response, or `next()` with `req.wallet` attached. -/
inductive MiddlewareOutcome where
  | unauthorized (error : String)
  | proceed (wallet : WalletInfo)
deriving DecidableEq, Repr

/-- `validateApiKeyMiddleware` from src/routes/dataRoute.ts: missing header is
401 "API key is required"; a missing row, or a row whose `publicKey`,
`encryptedPrivateKey`, `keyPairIV` or `keyPairAuthTag` is falsy, is
401 "Invalid API key"; otherwise the wallet is attached and the handler runs. -/
def validateApiKeyMiddleware (rows : List DbApiKey) (now : Nat)
    (hashKey : String → String) (apiKey : Option String) : MiddlewareOutcome :=
  match apiKey with
  | none => .unauthorized "API key is required"
  | some k =>
    match findApiKey rows now (hashKey k) with
    | none => .unauthorized "Invalid API key"
    | some keyData =>
      if strTruthy keyData.publicKey && strTruthy keyData.encryptedPrivateKey &&
          strTruthy keyData.keyPairIV && strTruthy keyData.keyPairAuthTag then
        .proceed ⟨keyData.publicKey.getD "", keyData.encryptedPrivateKey.getD "",
          keyData.keyPairIV.getD "", keyData.keyPairAuthTag.getD ""⟩
      else
        .unauthorized "Invalid API key"

/-! ## Ledger, Quote Cache and Fulfillment (src/routes/dataRoute.ts)

The viem chain client is an oracle `Chain` fixed for the requesting wallet's
address; the quote cache `Map` is a function from quote hash to entry; the
fulfillment side effects (key decryption, transaction submission, receipt
wait, IPFS fetch) are the oracle `FulfillEnv`.  The handler also emits a
trace of `Event`s recording ownership reads, purchase submissions,
confirmation waits and payload fetches, in the order the source awaits them. -/

/-- `getDatasetMetadata` tuple: [name, description, contentHash, ipfsHash, currentPrice, tags]. -/
structure DatasetMetadata where
  name : String
  description : String
  contentHash : String
  ipfsHash : String
  price : Nat
  tags : List String
deriving DecidableEq, Repr

/-- Read-only chain state as seen through the viem client for one wallet:
`balanceOf`/`hasPurchased` are curried at the wallet address, and
`nativeBalance` is `publicClient.getBalance` for it. -/
structure Chain where
  tokensByTag : String → List Nat
  tokenTags : Nat → List String
  metadata : Nat → DatasetMetadata
  balanceOf : Nat → Nat
  hasPurchased : Nat → Bool
  nativeBalance : Nat

/-- The ownership test of the handler: `userBalance > 0 || hasPurchased`. -/
def ownedOnChain (chain : Chain) (t : Nat) : Bool :=
  decide (0 < chain.balanceOf t) || chain.hasPurchased t

/-- One dataset of a cached quote (what the `/quote` handler stores). -/
structure QuoteDataset where
  tokenId : Nat
  name : String
  description : String
  price : Nat
  tags : List String
deriving DecidableEq, Repr

/-- A `quoteCache` entry: creation timestamp (ms) plus the priced list. -/
structure QuoteEntry where
  timestamp : Nat
  data : List QuoteDataset
deriving DecidableEq, Repr

/-- The in-memory `quoteCache` map. -/
def QuoteCache : Type := String → Option QuoteEntry

/-- Trace events of one redemption request. -/
inductive Event where
  | ownership (tokenId : Nat)
  | purchase (tokenId : Nat)
  | confirm (tokenId : Nat)
  | fetch (tokenId : Nat)
deriving DecidableEq, Repr

/-- An element of `datasetsToProcess`: owned entries carry name and
description but no price, unowned entries carry the price but no name
or description (exactly the object literals the source pushes). -/
structure PendingDataset where
  tokenId : Nat
  ipfsHash : String
  name : Option String
  description : Option String
  price : Option Nat
  owned : Bool
deriving DecidableEq, Repr

/-- Accumulator of the ownership-resolution loop: `totalPrice` and
`datasetsToProcess`. -/
structure ResolveOut where
  totalPrice : Nat
  datasets : List PendingDataset
deriving DecidableEq, Repr

/-- One iteration of the `for (const tokenId of tokenIds)` loop: read
`balanceOf` and `hasPurchased`, then metadata, and either append an owned
entry or add the price and append an unowned entry. -/
def resolveStep (chain : Chain) (acc : ResolveOut) (tokenId : Nat) : ResolveOut :=
  let m := chain.metadata tokenId
  if ownedOnChain chain tokenId then
    ⟨acc.totalPrice,
     acc.datasets ++ [⟨tokenId, m.ipfsHash, some m.name, some m.description, none, true⟩]⟩
  else
    ⟨acc.totalPrice + m.price,
     acc.datasets ++ [⟨tokenId, m.ipfsHash, none, none, some m.price, false⟩]⟩

/-- The whole ownership-resolution loop over the requested token ids. -/
def resolveDatasets (chain : Chain) (tokenIds : List Nat) : ResolveOut :=
  tokenIds.foldl (resolveStep chain) ⟨0, []⟩

/-- Spec-side description of the affordability sum: the prices of exactly the
requested datasets the wallet does not already own. -/
def unownedTotal (chain : Chain) (tokenIds : List Nat) : Nat :=
  ((tokenIds.filter fun t => !ownedOnChain chain t).map fun t => (chain.metadata t).price).sum

/-- Normalized payload kinds produced by the content-type classification.
Non-text contents are base64-encoded at the HTTP layer; here they carry the
raw bytes as a string. -/
inductive Payload where
  | json (content : String)
  | csv (content : String)
  | excel (content : String)
  | binary (content : String) (contentType : String)
deriving DecidableEq, Repr

/-- What the gateway `fetch` yields: the `content-type` header and the body. -/
structure FetchResponse where
  contentType : Option String
  body : String
deriving DecidableEq, Repr

/-- Does the list begin with the pattern? -/
def listStartsWith : List Char → List Char → Bool
  | _, [] => true
  | [], _ :: _ => false
  | c :: cs, d :: ds => c == d && listStartsWith cs ds

/-- Does the list contain the pattern as a contiguous run? -/
def listContainsSub : List Char → List Char → Bool
  | [], pat => pat.isEmpty
  | c :: rest, pat => listStartsWith (c :: rest) pat || listContainsSub rest pat

/-- Substring containment (js `String.includes`). -/
def strContains (s sub : String) : Bool :=
  listContainsSub s.data sub.data

/-- `includes` through an optional chain (`contentType?.includes(...)`,
`dataset.name?.toLowerCase().includes(...)`): `none` is falsy. -/
def optContains (s : Option String) (sub : String) : Bool :=
  match s with
  | none => false
  | some s => strContains s sub

/-- The content classification of the fetch block: json by content type,
csv by content type or `.csv` filename, excel by the two spreadsheet content
types or `.xlsx` filename, otherwise binary with the declared content type
(defaulting to application/octet-stream). -/
def classifyContent (resp : FetchResponse) (name : Option String) : Payload :=
  if optContains resp.contentType "application/json" then
    .json resp.body
  else if optContains resp.contentType "text/csv" ||
      optContains (name.map String.toLower) ".csv" then
    .csv resp.body
  else if optContains resp.contentType
        "application/vnd.openxmlformats-officedocument.spreadsheetml.sheet" ||
      optContains resp.contentType "application/vnd.ms-excel" ||
      optContains (name.map String.toLower) ".xlsx" then
    .excel resp.body
  else
    .binary resp.body (resp.contentType.getD "application/octet-stream")

/-- A per-dataset element of the `results` array: either
`{tokenId, data, purchased, metadata: {name, description}}` or
`{tokenId, error, purchased}`. -/
inductive ProcResult where
  | success (tokenId : Nat) (data : Payload) (purchased : Bool)
      (name : Option String) (description : Option String)
  | failure (tokenId : Nat) (error : String) (purchased : Bool)
deriving DecidableEq, Repr

/-- The fulfillment side effects: decrypting the wallet key
(`decryptData` over the stored strings), `walletClient.writeContract`
(token id and value to hash), `waitForTransactionReceipt`, and the whole
pinata-URL + `fetch` + body-read block per ipfs hash. -/
structure FulfillEnv where
  decryptResult : Except String String
  submitResult : Nat → Nat → Except String String
  confirmResult : String → Except String Unit
  fetchResult : String → Except String FetchResponse

/-- The purchase half of one loop iteration for `dataset`: nothing for owned
entries; otherwise decrypt the key, submit `purchaseDataset` and await the
receipt.  Returns the emitted events and, when some step threw, the error
that escapes to the outer catch. -/
def purchasePhase (env : FulfillEnv) (d : PendingDataset) : List Event × Option String :=
  if d.owned then ([], none)
  else
    match env.decryptResult with
    | .error e => ([], some e)
    | .ok _privateKey =>
      match env.submitResult d.tokenId (d.price.getD 0) with
      | .error e => ([], some e)
      | .ok hash =>
        match env.confirmResult hash with
        | .error e => ([Event.purchase d.tokenId], some e)
        | .ok _ => ([Event.purchase d.tokenId, Event.confirm d.tokenId], none)

/-- The result the per-dataset `try/catch` pushes for `dataset`: the
classified payload on success, the wrapped error message on failure, in both
cases with `purchased: !dataset.owned` (and metadata on success). -/
def fetchOutcome (env : FulfillEnv) (d : PendingDataset) : ProcResult :=
  match env.fetchResult d.ipfsHash with
  | .ok resp => .success d.tokenId (classifyContent resp d.name) (!d.owned) d.name d.description
  | .error e => .failure d.tokenId ("Failed to process dataset: " ++ e) (!d.owned)

/-- Output of the processing loop: the `results` array, the event trace, and
the error thrown to the outer catch, if any. -/
structure LoopOut where
  results : List ProcResult
  events : List Event
  abortError : Option String
deriving DecidableEq, Repr

/-- The `for (const dataset of datasetsToProcess)` loop: purchase phase
(whose throw aborts the whole loop), then the guarded fetch phase which
always pushes a result. -/
def processLoop (env : FulfillEnv) : List PendingDataset → LoopOut
  | [] => ⟨[], [], none⟩
  | d :: rest =>
    match purchasePhase env d with
    | (evs, some e) => ⟨[], evs, some e⟩
    | (evs, none) =>
      let out := processLoop env rest
      ⟨fetchOutcome env d :: out.results,
       evs ++ Event.fetch d.tokenId :: out.events,
       out.abortError⟩

/-- Responses the two handlers can produce (constructors encode the HTTP
status: unauthorized 401, badRequest 400, notFound 404, serverError 500,
ok/okQuote 200). -/
inductive ApiResponse where
  | unauthorized (error : String)
  | badRequest (message : String)
  | notFound (message : String)
  | serverError (message : String)
  | okQuote (datasets : List QuoteDataset) (quoteHash : String)
  | ok (datasets : List ProcResult)
deriving DecidableEq, Repr

/-- Body of `POST /datasets`. `none` models a missing/non-array field. -/
structure DatasetsRequest where
  tokenIds : Option (List Nat)
  quoteHash : Option String
deriving DecidableEq, Repr

/-- The part of the `/datasets` handler after quote validation: fetch the
native balance, resolve ownership of every requested id, reject when the
summed unowned price exceeds the balance, otherwise run the processing loop;
a loop abort becomes the outer catch's 500. -/
def redeemValid (chain : Chain) (env : FulfillEnv) (tokenIds : List Nat) :
    ApiResponse × List Event :=
  let r := resolveDatasets chain tokenIds
  let ownEvs := tokenIds.map Event.ownership
  if chain.nativeBalance < r.totalPrice then
    (.badRequest "Insufficient balance to purchase datasets", ownEvs)
  else
    let out := processLoop env r.datasets
    (match out.abortError with
     | some e => ApiResponse.serverError e
     | none => ApiResponse.ok out.results,
     ownEvs ++ out.events)

/-- Quote validation of the `/datasets` handler: the request fails with the
expiry message when the hash is absent from the cache or
`Date.now() - quote.timestamp > 10000`. -/
def redeemBody (cache : QuoteCache) (now : Nat) (chain : Chain) (env : FulfillEnv)
    (tokenIds : List Nat) (quoteHash : String) : ApiResponse × List Event :=
  match cache quoteHash with
  | none => (.badRequest "Quote has expired. Please request a new quote.", [])
  | some quote =>
    if 10000 < now - quote.timestamp then
      (.badRequest "Quote has expired. Please request a new quote.", [])
    else
      redeemValid chain env tokenIds

/-- The `POST /datasets` handler (after the middleware): body validation,
then quote validation, then the redemption flow. -/
def datasetsHandler (cache : QuoteCache) (now : Nat) (chain : Chain) (env : FulfillEnv)
    (req : DatasetsRequest) : ApiResponse × List Event :=
  match req.tokenIds, req.quoteHash with
  | some tokenIds, some quoteHash => redeemBody cache now chain env tokenIds quoteHash
  | _, _ => (.badRequest "Invalid request body", [])

/-- The `GET /quote` handler (after the middleware): search the registry by
tag, 404 when nothing matches, otherwise build the priced list, store it
under a fresh hash (`crypto.randomBytes(32)`, passed in as `newHash`) with
the current timestamp, and return it. -/
def quoteHandler (chain : Chain) (now : Nat) (newHash : String) (cache : QuoteCache)
    (searchParam : Option String) : ApiResponse × QuoteCache :=
  match searchParam with
  | none => (.badRequest "Search parameter is required", cache)
  | some tag =>
    let tokenIds := chain.tokensByTag tag
    if tokenIds.isEmpty then
      (.notFound "No datasets found with the given tag", cache)
    else
      let datasets := tokenIds.map fun t =>
        let m := chain.metadata t
        QuoteDataset.mk t m.name m.description m.price (chain.tokenTags t)
      (.okQuote datasets newHash,
       fun h => if h == newHash then some ⟨now, datasets⟩ else cache h)

/-- `POST /datasets` route: middleware, then handler. -/
def datasetsRoute (rows : List DbApiKey) (now : Nat) (hashKey : String → String)
    (apiKey : Option String) (cache : QuoteCache) (chain : Chain) (env : FulfillEnv)
    (req : DatasetsRequest) : ApiResponse × List Event :=
  match validateApiKeyMiddleware rows now hashKey apiKey with
  | .unauthorized e => (.unauthorized e, [])
  | .proceed _wallet => datasetsHandler cache now chain env req

/-- `GET /quote` route: middleware, then handler (returning the possibly
updated cache). -/
def quoteRoute (rows : List DbApiKey) (now : Nat) (hashKey : String → String)
    (apiKey : Option String) (chain : Chain) (newHash : String) (cache : QuoteCache)
    (searchParam : Option String) : ApiResponse × QuoteCache :=
  match validateApiKeyMiddleware rows now hashKey apiKey with
  | .unauthorized e => (.unauthorized e, cache)
  | .proceed _wallet => quoteHandler chain now newHash cache searchParam

/-- Is the event a purchase submission? -/
def isPurchaseEv : Event → Bool
  | .purchase _ => true
  | _ => false

/-- Projection of a trace onto purchase submissions and confirmation waits. -/
def pcProj (evs : List Event) : List Event :=
  evs.filter fun e =>
    match e with
    | .purchase _ => true
    | .confirm _ => true
    | _ => false

/-- A purchase/confirm projection is sequential: it is a run of
purchase-then-its-own-confirm pairs, except that the very last purchase may
be missing its confirm (the request aborted while awaiting the receipt). -/
def alternatesPC : List Event → Bool
  | [] => true
  | [Event.purchase _] => true
  | Event.purchase t :: Event.confirm s :: rest => t == s && alternatesPC rest
  | _ => false

/-- The entry `resolveStep` appends for one token id. -/
def pendingOf (chain : Chain) (t : Nat) : PendingDataset :=
  let m := chain.metadata t
  if ownedOnChain chain t then ⟨t, m.ipfsHash, some m.name, some m.description, none, true⟩
  else ⟨t, m.ipfsHash, none, none, some m.price, false⟩

/-- Did the `Except` computation succeed? -/
def exceptOk {α : Type} : Except String α → Bool
  | .ok _ => true
  | .error _ => false

/-! ### Concrete fixtures used by witnesses and counterexamples -/

/-- A cached quote created at time 0 quoting dataset 9. -/
def fixQuoteEntry : QuoteEntry := ⟨0, [⟨9, "other", "other set", 1, ["misc"]⟩]⟩

/-- A cache holding `fixQuoteEntry` under hash "q". -/
def fixCache : QuoteCache := fun h => if h == "q" then some fixQuoteEntry else none

/-- A cache holding, under the same hash "q", a quote with the same
timestamp but an empty dataset list. -/
def fixCache2 : QuoteCache := fun h => if h == "q" then some ⟨0, []⟩ else none

/-- An empty cache. -/
def fixCacheEmpty : QuoteCache := fun _ => none

/-- A chain where dataset 1 is unowned (price 5), dataset 2 is owned via a
positive token balance, and the wallet's native balance is 100. -/
def fixChain : Chain :=
  { tokensByTag := fun _ => [1, 2]
    tokenTags := fun _ => ["finance"]
    metadata := fun t =>
      ⟨if t == 1 then "set one" else "set two", "about a set", "ch",
       if t == 1 then "ipfs1" else "ipfs2", 5 * t, ["finance"]⟩
    balanceOf := fun t => if t == 2 then 1 else 0
    hasPurchased := fun _ => false
    nativeBalance := 100 }

/-- The same chain with a native balance of 3: dataset 1 is unaffordable. -/
def fixChainPoor : Chain := { fixChain with nativeBalance := 3 }

/-- A chain where datasets 1 and 2 are both unowned and cost 1 each. -/
def fixChainTwo : Chain :=
  { fixChain with
    metadata := fun t => ⟨"n", "d", "ch", if t == 1 then "ipfs1" else "ipfs2", 1, []⟩
    balanceOf := fun _ => 0
    nativeBalance := 10 }

/-- Fulfillment oracles where every step succeeds. -/
def fixEnv : FulfillEnv :=
  { decryptResult := .ok "privkey"
    submitResult := fun t _ => .ok (if t == 1 then "txhash1" else "txhash2")
    confirmResult := fun _ => .ok ()
    fetchResult := fun h => .ok ⟨some "application/json", "payload of " ++ h⟩ }

/-- The same oracles, but submitting dataset 1's purchase throws. -/
def fixEnvBoom : FulfillEnv :=
  { fixEnv with submitResult := fun t v => if t == 1 then .error "boom" else fixEnv.submitResult t v }

/-- The same oracles, but every gateway fetch throws. -/
def fixEnvFetchFail : FulfillEnv :=
  { fixEnv with fetchResult := fun _ => .error "no gateway" }

/-- Oracles identical to `fixEnv` except for the transaction hash the
ledger returns on submission. -/
def fixEnvHashA : FulfillEnv := { fixEnv with submitResult := fun _ _ => .ok "txhash-one" }

/-- A second set of oracles differing from `fixEnvHashA` only in that hash. -/
def fixEnvHashB : FulfillEnv := { fixEnv with submitResult := fun _ _ => .ok "txhash-two" }

/-- An active, never-expiring key row with full wallet material. -/
def fixRow : DbApiKey := ⟨1, "hashedk", true, none, some "0xabc", some "enc", some "iv", some "tag"⟩

/-- An active, never-expiring key row with no stored `publicKey`. -/
def fixRowNoWallet : DbApiKey := ⟨2, "hashedk", true, none, none, some "enc", some "iv", some "tag"⟩

/-- A hash oracle mapping the plaintext key "secret" to "hashedk". -/
def fixHash : String → String := fun s => if s == "secret" then "hashedk" else String.append s "#"

/-- Key store whose last-used refresh throws. -/
def fixKeyEnv : KeyStoreEnv := ⟨[fixRow], 0, fixHash, fun _ => .error "db down", fun _ => .ok ()⟩

/-- Key store whose writes all succeed. -/
def fixKeyEnvOk : KeyStoreEnv := ⟨[fixRow], 0, fixHash, fun _ => .ok (), fun _ => .ok ()⟩

/-- The unowned pending entry for dataset 1 of `fixChainTwo`. -/
def fixPendingOne : PendingDataset := ⟨1, "ipfs1", none, none, some 1, false⟩

/-- The unowned pending entry for dataset 2 of `fixChainTwo`. -/
def fixPendingTwo : PendingDataset := ⟨2, "ipfs2", none, none, some 1, false⟩

end Harbor

namespace Harbor

/-- Decrypting the keystream image starting at the same position gives back the input. -/
theorem xorKeystream_involutive (key iv : Nat) :
    ∀ (i : Nat) (l : List Nat), xorKeystream key iv i (xorKeystream key iv i l) = l := by
  intro i l
  induction l generalizing i with
  | nil => rfl
  | cons b rest ih =>
    simp only [xorKeystream, ih]
    rw [Nat.xor_assoc, Nat.xor_self, Nat.xor_zero]

/-- Claim C6: for every plaintext, decrypting the output of `encryptData`
(with the ciphertext, iv and auth tag it produced) returns the original
plaintext; decrypting with a tampered auth tag or with a wrong iv always
fails, and whenever decryption of the produced ciphertext under the produced
tag succeeds, the plaintext returned is exactly the original. -/
theorem encryptData_decryptData_roundtrip (key iv : Nat) (data : List Nat) :
    decryptData key (encryptData key iv data).encryptedData
        (encryptData key iv data).iv (encryptData key iv data).authTag = some data
    ∧ (∀ tag : AuthTag, tag ≠ (encryptData key iv data).authTag →
        decryptData key (encryptData key iv data).encryptedData iv tag = none)
    ∧ (∀ iv2 : Nat, iv2 ≠ iv →
        decryptData key (encryptData key iv data).encryptedData iv2
          (encryptData key iv data).authTag = none)
    ∧ (∀ (iv2 : Nat) (out : List Nat),
        decryptData key (encryptData key iv data).encryptedData iv2
          (encryptData key iv data).authTag = some out → out = data) := by
  refine ⟨?_, ?_, ?_, ?_⟩
  · simp [encryptData, decryptData, xorKeystream_involutive]
  · intro tag htag
    simp only [encryptData] at htag ⊢
    simp [decryptData, htag]
  · intro iv2 hiv
    simp only [encryptData, decryptData, computeAuthTag]
    rw [if_neg]
    intro hEq
    exact hiv (by cases hEq; rfl)
  · intro iv2 out h
    simp only [encryptData, decryptData, computeAuthTag] at h
    by_cases hiv : iv2 = iv
    · subst hiv
      rw [if_pos rfl] at h
      rw [xorKeystream_involutive] at h
      exact (Option.some.injEq _ _ ▸ h).symm
    · rw [if_neg] at h
      · exact absurd h (by simp)
      · intro hEq
        exact hiv (by cases hEq; rfl)

/-- Claim C6 witness: the round trip and a tamper rejection at a concrete input. -/
theorem encryptData_decryptData_roundtrip_witness :
    decryptData 5 (encryptData 5 7 [1, 2, 3]).encryptedData
        (encryptData 5 7 [1, 2, 3]).iv (encryptData 5 7 [1, 2, 3]).authTag = some [1, 2, 3]
    ∧ decryptData 5 (encryptData 5 7 [1, 2, 3]).encryptedData 7 ⟨0, 0, []⟩ = none :=
  ⟨(encryptData_decryptData_roundtrip 5 7 [1, 2, 3]).1,
   (encryptData_decryptData_roundtrip 5 7 [1, 2, 3]).2.1 ⟨0, 0, []⟩ (by decide)⟩

/-! ### Structure lemmas about the ownership-resolution loop -/

/-- `resolveDatasets` computes exactly the unowned price sum and, in request
order, one pending entry per requested id. -/
theorem resolveDatasets_spec (chain : Chain) (tokenIds : List Nat) :
    resolveDatasets chain tokenIds =
      ⟨unownedTotal chain tokenIds, tokenIds.map (pendingOf chain)⟩ := by
  suffices h : ∀ (ts : List Nat) (acc : ResolveOut),
      ts.foldl (resolveStep chain) acc =
        ⟨acc.totalPrice + unownedTotal chain ts, acc.datasets ++ ts.map (pendingOf chain)⟩ by
    simpa [resolveDatasets] using h tokenIds ⟨0, []⟩
  intro ts
  induction ts with
  | nil => intro acc; simp [unownedTotal]
  | cons t ts ih =>
    intro acc
    rw [List.foldl_cons, ih]
    cases h : ownedOnChain chain t
    · simp [resolveStep, pendingOf, unownedTotal, h, List.filter_cons, Nat.add_assoc]
    · simp [resolveStep, pendingOf, unownedTotal, h, List.filter_cons]

/-- The pending entry built for `t` carries `t` as its token id. -/
theorem pendingOf_tokenId (chain : Chain) (t : Nat) : (pendingOf chain t).tokenId = t := by
  unfold pendingOf
  split <;> rfl

/-- The pending entry built for `t` is marked owned exactly by the chain test. -/
theorem pendingOf_owned (chain : Chain) (t : Nat) :
    (pendingOf chain t).owned = ownedOnChain chain t := by
  unfold pendingOf
  cases h : ownedOnChain chain t <;> simp [h]

/-! ### Structure lemmas about the purchase phase and the processing loop -/

/-- Owned entries skip the purchase phase entirely. -/
theorem purchasePhase_of_owned (env : FulfillEnv) (d : PendingDataset) (h : d.owned = true) :
    purchasePhase env d = ([], none) := by
  simp [purchasePhase, h]

/-- The purchase phase emits nothing, just the submission, or the
submission followed by its confirmation — always for its own token id. -/
theorem purchasePhase_events_shape (env : FulfillEnv) (d : PendingDataset) :
    (purchasePhase env d).1 = [] ∨ (purchasePhase env d).1 = [Event.purchase d.tokenId] ∨
      (purchasePhase env d).1 = [Event.purchase d.tokenId, Event.confirm d.tokenId] := by
  cases hOwn : d.owned
  · cases hd : env.decryptResult with
    | error e => simp [purchasePhase, hOwn, hd]
    | ok k =>
      cases hs : env.submitResult d.tokenId (d.price.getD 0) with
      | error e => simp [purchasePhase, hOwn, hd, hs]
      | ok hx =>
        cases hc : env.confirmResult hx with
        | error e => simp [purchasePhase, hOwn, hd, hs, hc]
        | ok u => simp [purchasePhase, hOwn, hd, hs, hc]
  · simp [purchasePhase, hOwn]

/-- A purchase phase that did not abort on an unowned entry submitted and
confirmed the purchase. -/
theorem purchasePhase_unowned_success (env : FulfillEnv) (d : PendingDataset)
    (hOwn : d.owned = false) (h : (purchasePhase env d).2 = none) :
    (purchasePhase env d).1 = [Event.purchase d.tokenId, Event.confirm d.tokenId] := by
  cases hd : env.decryptResult with
  | error e => simp [purchasePhase, hOwn, hd] at h
  | ok k =>
    cases hs : env.submitResult d.tokenId (d.price.getD 0) with
    | error e => simp [purchasePhase, hOwn, hd, hs] at h
    | ok hx =>
      cases hc : env.confirmResult hx with
      | error e => simp [purchasePhase, hOwn, hd, hs, hc] at h
      | ok u => simp [purchasePhase, hOwn, hd, hs, hc]

/-- A purchase phase that aborted emitted at most its own submission
(the receipt wait threw), never a confirmation. -/
theorem purchasePhase_abort_shape (env : FulfillEnv) (d : PendingDataset) (e : String)
    (h : (purchasePhase env d).2 = some e) :
    (purchasePhase env d).1 = [] ∨ (purchasePhase env d).1 = [Event.purchase d.tokenId] := by
  cases hOwn : d.owned
  · cases hd : env.decryptResult with
    | error e2 => exact Or.inl (by simp [purchasePhase, hOwn, hd])
    | ok k =>
      cases hs : env.submitResult d.tokenId (d.price.getD 0) with
      | error e2 => exact Or.inl (by simp [purchasePhase, hOwn, hd, hs])
      | ok hx =>
        cases hc : env.confirmResult hx with
        | error e2 => exact Or.inr (by simp [purchasePhase, hOwn, hd, hs, hc])
        | ok u => simp [purchasePhase, hOwn, hd, hs, hc] at h
  · simp [purchasePhase, hOwn] at h

/-- The purchase phase never emits a fetch event. -/
theorem fetch_not_mem_purchasePhase (env : FulfillEnv) (d : PendingDataset) (t : Nat) :
    Event.fetch t ∉ (purchasePhase env d).1 := by
  rcases purchasePhase_events_shape env d with h | h | h <;> simp [h]

/-- The purchase phase of an owned entry, or of an entry for a different
token id, never emits a purchase event for `t`. -/
theorem purchase_not_mem_purchasePhase (env : FulfillEnv) (d : PendingDataset) (t : Nat)
    (h : d.owned = true ∨ d.tokenId ≠ t) :
    Event.purchase t ∉ (purchasePhase env d).1 := by
  rcases h with h | h
  · simp [purchasePhase_of_owned env d h]
  · rcases purchasePhase_events_shape env d with h2 | h2 | h2 <;> simp [h2] <;>
      exact fun hh => h hh.symm

/-- Ownership-check events are never purchase events. -/
theorem purchase_not_mem_ownership_map (t : Nat) (ts : List Nat) :
    Event.purchase t ∉ ts.map Event.ownership := by
  simp [List.mem_map]

/-- Ownership-check events are never fetch events. -/
theorem fetch_not_mem_ownership_map (t : Nat) (ts : List Nat) :
    Event.fetch t ∉ ts.map Event.ownership := by
  simp [List.mem_map]

/-- The purchase/confirm projection distributes over concatenation. -/
theorem pcProj_append (l1 l2 : List Event) : pcProj (l1 ++ l2) = pcProj l1 ++ pcProj l2 :=
  List.filter_append l1 l2

/-- Fetch events vanish under the purchase/confirm projection. -/
theorem pcProj_cons_fetch (t : Nat) (l : List Event) :
    pcProj (Event.fetch t :: l) = pcProj l := by
  simp [pcProj, List.filter_cons]

/-- Ownership events vanish under the purchase/confirm projection. -/
theorem pcProj_ownership_map (ts : List Nat) : pcProj (ts.map Event.ownership) = [] := by
  induction ts with
  | nil => rfl
  | cons t ts ih =>
    have h : pcProj (Event.ownership t :: ts.map Event.ownership) =
        pcProj (ts.map Event.ownership) := by
      simp [pcProj, List.filter_cons]
    rw [List.map_cons, h, ih]

/-- Ownership events survive no purchase-event filter. -/
theorem filter_purchase_ownership (ts : List Nat) :
    (ts.map Event.ownership).filter isPurchaseEv = [] := by
  induction ts with
  | nil => rfl
  | cons t ts ih =>
    rw [List.map_cons, List.filter_cons, if_neg (by simp [isPurchaseEv])]
    exact ih

/-- Applying the handler to a well-formed body reduces to the quote check. -/
theorem datasetsHandler_some (cache : QuoteCache) (now : Nat) (chain : Chain)
    (env : FulfillEnv) (tokenIds : List Nat) (quoteHash : String) :
    datasetsHandler cache now chain env ⟨some tokenIds, some quoteHash⟩ =
      redeemBody cache now chain env tokenIds quoteHash := rfl

/-- If every entry for token id `t` in the batch is owned, the loop trace
contains no purchase of `t`. -/
theorem processLoop_no_purchase (env : FulfillEnv) (t : Nat) :
    ∀ ds : List PendingDataset, (∀ d ∈ ds, d.tokenId = t → d.owned = true) →
      Event.purchase t ∉ (processLoop env ds).events := by
  intro ds
  induction ds with
  | nil => intro _; simp [processLoop]
  | cons d rest ih =>
    intro hall
    have hd : d.owned = true ∨ d.tokenId ≠ t := by
      by_cases h : d.tokenId = t
      · exact Or.inl (hall d (by simp) h)
      · exact Or.inr h
    have hnp := purchase_not_mem_purchasePhase env d t hd
    have ihh := ih fun d' hd' => hall d' (List.mem_cons_of_mem d hd')
    rcases hp : purchasePhase env d with ⟨evs, err⟩
    rw [hp] at hnp
    cases err with
    | some e => simpa [processLoop, hp] using hnp
    | none =>
      simp only [processLoop, hp]
      simp only [List.mem_append, List.mem_cons]
      rintro (h1 | h2 | h3)
      · exact hnp h1
      · cases h2
      · exact ihh h3

/-- In the loop trace, a fetched unowned dataset was purchased and its
receipt awaited before the fetch, in that order. -/
theorem processLoop_fetch_order (env : FulfillEnv) (t : Nat) :
    ∀ ds : List PendingDataset, (∀ d ∈ ds, d.tokenId = t → d.owned = false) →
      Event.fetch t ∈ (processLoop env ds).events →
      [Event.purchase t, Event.confirm t, Event.fetch t].Sublist (processLoop env ds).events := by
  intro ds
  induction ds with
  | nil => intro _ hmem; simp [processLoop] at hmem
  | cons d rest ih =>
    intro hall hmem
    rcases hp : purchasePhase env d with ⟨evs, err⟩
    cases err with
    | some e =>
      rw [processLoop, hp] at hmem
      exact absurd hmem (by have := fetch_not_mem_purchasePhase env d t; rw [hp] at this; exact this)
    | none =>
      rw [processLoop, hp] at hmem ⊢
      by_cases hdt : d.tokenId = t
      · have hOwn : d.owned = false := hall d (by simp) hdt
        have hevs : evs = [Event.purchase d.tokenId, Event.confirm d.tokenId] := by
          have := purchasePhase_unowned_success env d hOwn (by rw [hp])
          rw [hp] at this
          exact this
        subst hdt
        rw [hevs]
        exact List.sublist_append_left _ _
      · have hno : Event.fetch t ∉ evs := by
          have := fetch_not_mem_purchasePhase env d t
          rw [hp] at this
          exact this
        have hmem2 : Event.fetch t ∈ (processLoop env rest).events := by
          simp only [List.mem_append, List.mem_cons] at hmem
          rcases hmem with h1 | h2 | h3
          · exact absurd h1 hno
          · exact absurd (by cases h2; rfl) hdt
          · exact h3
        have hsub := ih (fun d' hd' => hall d' (List.mem_cons_of_mem d hd')) hmem2
        exact hsub.trans ((List.sublist_cons_self _ _).trans
          (List.sublist_append_right evs _))

/-- The purchase/confirm projection of the loop trace is sequential:
purchases are issued one at a time, each followed by its own confirmation
(only a trailing unconfirmed purchase can remain when the receipt wait threw). -/
theorem processLoop_alternates (env : FulfillEnv) :
    ∀ ds : List PendingDataset, alternatesPC (pcProj (processLoop env ds).events) = true := by
  intro ds
  induction ds with
  | nil => rfl
  | cons d rest ih =>
    rcases hp : purchasePhase env d with ⟨evs, err⟩
    cases err with
    | some e =>
      have hshape := purchasePhase_abort_shape env d e (by rw [hp])
      rw [hp] at hshape
      replace hshape : evs = [] ∨ evs = [Event.purchase d.tokenId] := hshape
      have hev : (processLoop env (d :: rest)).events = evs := by
        simp [processLoop, hp]
      rw [hev]
      rcases hshape with h | h <;> rw [h] <;> rfl
    | none =>
      have hshape : evs = [] ∨ evs = [Event.purchase d.tokenId, Event.confirm d.tokenId] := by
        cases hOwn : d.owned
        · have h2 := purchasePhase_unowned_success env d hOwn (by rw [hp])
          rw [hp] at h2
          exact Or.inr h2
        · have h2 := purchasePhase_of_owned env d hOwn
          have h3 : (evs, (none : Option String)) = ([], none) := hp.symm.trans h2
          injection h3 with h4 h5
          exact Or.inl h4
      have hev : (processLoop env (d :: rest)).events =
          evs ++ Event.fetch d.tokenId :: (processLoop env rest).events := by
        simp [processLoop, hp]
      rw [hev, pcProj_append, pcProj_cons_fetch]
      rcases hshape with h | h
      · rw [h]
        simpa using ih
      · rw [h]
        have hpc : pcProj [Event.purchase d.tokenId, Event.confirm d.tokenId] =
            [Event.purchase d.tokenId, Event.confirm d.tokenId] := rfl
        rw [hpc, List.cons_append, List.cons_append, List.nil_append]
        simp [alternatesPC, ih]

/-- When no purchase phase throws, the loop completes with one result per
dataset, each the outcome of its guarded fetch block. -/
theorem processLoop_results (env : FulfillEnv) :
    ∀ ds : List PendingDataset, (∀ d ∈ ds, (purchasePhase env d).2 = none) →
      (processLoop env ds).abortError = none ∧
        (processLoop env ds).results = ds.map (fetchOutcome env) := by
  intro ds
  induction ds with
  | nil => intro _; exact ⟨rfl, rfl⟩
  | cons d rest ih =>
    intro hall
    have hd : (purchasePhase env d).2 = none := hall d (by simp)
    rcases hp : purchasePhase env d with ⟨evs, err⟩
    rw [hp] at hd
    cases hd
    have ihh := ih fun d' hd' => hall d' (List.mem_cons_of_mem d hd')
    simp only [processLoop, hp, List.map_cons]
    exact ⟨ihh.1, by rw [ihh.2]⟩

/-- A purchase-phase throw, after any run of datasets whose purchase phases
succeeded, aborts the loop with exactly that error. -/
theorem processLoop_abort (env : FulfillEnv) :
    ∀ (l1 : List PendingDataset) (d : PendingDataset) (l2 : List PendingDataset) (e : String),
      (∀ d' ∈ l1, (purchasePhase env d').2 = none) → (purchasePhase env d).2 = some e →
      (processLoop env (l1 ++ d :: l2)).abortError = some e := by
  intro l1
  induction l1 with
  | nil =>
    intro d l2 e _ hd
    rcases hp : purchasePhase env d with ⟨evs, err⟩
    rw [hp] at hd
    cases hd
    simp [processLoop, hp]
  | cons a l1 ih =>
    intro d l2 e hall hd
    have ha : (purchasePhase env a).2 = none := hall a (by simp)
    rcases hp : purchasePhase env a with ⟨evs, err⟩
    rw [hp] at ha
    cases ha
    simp only [List.cons_append, processLoop, hp]
    exact ih d l2 e (fun d' h' => hall d' (List.mem_cons_of_mem a h')) hd

/-- The guarded fetch block's outcome depends only on the fetch oracle. -/
theorem fetchOutcome_congr (env1 env2 : FulfillEnv)
    (hfetch : env1.fetchResult = env2.fetchResult) (d : PendingDataset) :
    fetchOutcome env1 d = fetchOutcome env2 d := by
  unfold fetchOutcome
  rw [hfetch]

/-- The per-dataset results are fully determined by the fetch oracle and by
which purchase phases succeed: in particular they never contain the
submitted transaction hash. -/
theorem processLoop_results_congr (env1 env2 : FulfillEnv)
    (hfetch : env1.fetchResult = env2.fetchResult) :
    ∀ ds : List PendingDataset,
      (∀ d ∈ ds, ((purchasePhase env1 d).2 = none ↔ (purchasePhase env2 d).2 = none)) →
      (processLoop env1 ds).results = (processLoop env2 ds).results := by
  intro ds
  induction ds with
  | nil => intro _; rfl
  | cons d rest ih =>
    intro hall
    have hd := hall d (by simp)
    have ihh := ih fun d' hd' => hall d' (List.mem_cons_of_mem d hd')
    rcases hp1 : purchasePhase env1 d with ⟨evs1, err1⟩
    rcases hp2 : purchasePhase env2 d with ⟨evs2, err2⟩
    rw [hp1, hp2] at hd
    cases err1 with
    | some e1 =>
      cases err2 with
      | some e2 => simp [processLoop, hp1, hp2]
      | none => simp at hd
    | none =>
      cases err2 with
      | some e2 => simp at hd
      | none =>
        simp only [processLoop, hp1, hp2]
        rw [fetchOutcome_congr env1 env2 hfetch d, ihh]

/-! ### Branch structure of the `/datasets` handler -/

/-- The trace of a redemption request is empty (body or quote rejected),
just the ownership checks (affordability rejected), or the ownership checks
followed by the processing-loop trace. -/
theorem datasetsHandler_events (cache : QuoteCache) (now : Nat) (chain : Chain)
    (env : FulfillEnv) (tokenIds : List Nat) (quoteHash : String) :
    (datasetsHandler cache now chain env ⟨some tokenIds, some quoteHash⟩).2 = [] ∨
    (datasetsHandler cache now chain env ⟨some tokenIds, some quoteHash⟩).2 =
      tokenIds.map Event.ownership ∨
    (datasetsHandler cache now chain env ⟨some tokenIds, some quoteHash⟩).2 =
      tokenIds.map Event.ownership ++
        (processLoop env (resolveDatasets chain tokenIds).datasets).events := by
  unfold datasetsHandler redeemBody redeemValid
  cases hc : cache quoteHash with
  | none => simp [hc]
  | some q =>
    by_cases ht : 10000 < now - q.timestamp
    · simp [hc, ht]
    · by_cases hb : chain.nativeBalance < (resolveDatasets chain tokenIds).totalPrice
      · simp [hc, ht, hb]
      · simp [hc, ht, hb]

/-! ### The claims -/

/-- Claim C1: with a valid quote, when the summed price of the requested
datasets the wallet does not already own exceeds the wallet's on-chain
native balance, the request fails with the insufficient-balance 400 and the
trace contains no purchase submission — only the ownership checks ran. -/
theorem redeem_insufficient_balance_rejects (cache : QuoteCache) (now : Nat) (chain : Chain)
    (env : FulfillEnv) (tokenIds : List Nat) (quoteHash : String) (q : QuoteEntry)
    (hq : cache quoteHash = some q) (hfresh : now - q.timestamp ≤ 10000)
    (hover : unownedTotal chain tokenIds > chain.nativeBalance) :
    datasetsHandler cache now chain env ⟨some tokenIds, some quoteHash⟩ =
      (.badRequest "Insufficient balance to purchase datasets", tokenIds.map Event.ownership)
    ∧ ((datasetsHandler cache now chain env ⟨some tokenIds, some quoteHash⟩).2).filter
        isPurchaseEv = [] := by
  have hmain : datasetsHandler cache now chain env ⟨some tokenIds, some quoteHash⟩ =
      (.badRequest "Insufficient balance to purchase datasets", tokenIds.map Event.ownership) := by
    rw [datasetsHandler_some]
    unfold redeemBody redeemValid
    rw [hq, resolveDatasets_spec]
    have h1 : ¬ (10000 < now - q.timestamp) := by omega
    have h2 : chain.nativeBalance <
        (ResolveOut.mk (unownedTotal chain tokenIds) (tokenIds.map (pendingOf chain))).totalPrice :=
      hover
    simp [h1, h2]
  refine ⟨hmain, ?_⟩
  rw [hmain]
  exact filter_purchase_ownership tokenIds

/-- Claim C1 witness: a wallet with balance 3 cannot afford dataset 1
(price 5); the request is rejected and no purchase is submitted. -/
theorem redeem_insufficient_balance_rejects_witness :
    datasetsHandler fixCache 0 fixChainPoor fixEnv ⟨some [1], some "q"⟩ =
      (.badRequest "Insufficient balance to purchase datasets", [1].map Event.ownership)
    ∧ ((datasetsHandler fixCache 0 fixChainPoor fixEnv ⟨some [1], some "q"⟩).2).filter
        isPurchaseEv = [] :=
  redeem_insufficient_balance_rejects fixCache 0 fixChainPoor fixEnv [1] "q" fixQuoteEntry
    (by decide) (by decide) (by decide)

/-- Claim C2: in every redemption trace, a fetched dataset the wallet did
not own on chain was first purchased and its receipt awaited — purchase,
confirmation, fetch appear in that order — and the purchase/confirm
projection of the trace is sequential: each submitted purchase is confirmed
before the next one is submitted. -/
theorem redeem_purchase_confirm_fetch_order (cache : QuoteCache) (now : Nat) (chain : Chain)
    (env : FulfillEnv) (tokenIds : List Nat) (quoteHash : String) :
    (∀ t : Nat, ownedOnChain chain t = false →
      Event.fetch t ∈ (datasetsHandler cache now chain env ⟨some tokenIds, some quoteHash⟩).2 →
      [Event.purchase t, Event.confirm t, Event.fetch t].Sublist
        (datasetsHandler cache now chain env ⟨some tokenIds, some quoteHash⟩).2)
    ∧ alternatesPC
        (pcProj (datasetsHandler cache now chain env ⟨some tokenIds, some quoteHash⟩).2) =
      true := by
  rcases datasetsHandler_events cache now chain env tokenIds quoteHash with hev | hev | hev <;>
    rw [hev]
  · exact ⟨fun t _ hmem => absurd hmem (by simp), rfl⟩
  · exact ⟨fun t _ hmem => absurd hmem (fetch_not_mem_ownership_map t tokenIds),
      by rw [pcProj_ownership_map]; rfl⟩
  · constructor
    · intro t hOwn hmem
      have hall : ∀ d ∈ (resolveDatasets chain tokenIds).datasets,
          d.tokenId = t → d.owned = false := by
        intro d hd hdt
        rw [resolveDatasets_spec] at hd
        replace hd : d ∈ tokenIds.map (pendingOf chain) := hd
        obtain ⟨s, hs, rfl⟩ := List.mem_map.mp hd
        rw [pendingOf_tokenId] at hdt
        rw [pendingOf_owned, hdt]
        exact hOwn
      have hmem2 : Event.fetch t ∈
          (processLoop env (resolveDatasets chain tokenIds).datasets).events := by
        rcases List.mem_append.mp hmem with h | h
        · exact absurd h (fetch_not_mem_ownership_map t tokenIds)
        · exact h
      exact (processLoop_fetch_order env t _ hall hmem2).trans
        (List.sublist_append_right _ _)
    · rw [pcProj_append, pcProj_ownership_map, List.nil_append]
      exact processLoop_alternates env _

/-- Claim C2 witness: on a concrete redemption purchasing dataset 1, the
trace contains purchase 1, confirm 1, fetch 1 in order, and the
purchase/confirm projection is sequential. -/
theorem redeem_purchase_confirm_fetch_order_witness :
    [Event.purchase 1, Event.confirm 1, Event.fetch 1].Sublist
      (datasetsHandler fixCache 0 fixChain fixEnv ⟨some [1, 2], some "q"⟩).2
    ∧ alternatesPC
        (pcProj (datasetsHandler fixCache 0 fixChain fixEnv ⟨some [1, 2], some "q"⟩).2) =
      true :=
  ⟨(redeem_purchase_confirm_fetch_order fixCache 0 fixChain fixEnv [1, 2] "q").1 1
      (by decide) (by decide),
   (redeem_purchase_confirm_fetch_order fixCache 0 fixChain fixEnv [1, 2] "q").2⟩

/-- Claim C3: ownership resolution marks a requested dataset owned exactly
when the wallet's token balance is positive or the ledger records a
purchase, and for any dataset the chain already shows as owned the
redemption trace contains no purchase submission — redeeming an
already-owned dataset again never pays again. -/
theorem redeem_ownership_idempotent (cache : QuoteCache) (now : Nat) (chain : Chain)
    (env : FulfillEnv) (tokenIds : List Nat) (quoteHash : String) :
    (∀ d ∈ (resolveDatasets chain tokenIds).datasets,
      d.owned = (decide (0 < chain.balanceOf d.tokenId) || chain.hasPurchased d.tokenId))
    ∧ (∀ t : Nat, ownedOnChain chain t = true →
        Event.purchase t ∉
          (datasetsHandler cache now chain env ⟨some tokenIds, some quoteHash⟩).2) := by
  constructor
  · intro d hd
    rw [resolveDatasets_spec] at hd
    replace hd : d ∈ tokenIds.map (pendingOf chain) := hd
    obtain ⟨s, hs, rfl⟩ := List.mem_map.mp hd
    rw [pendingOf_owned, pendingOf_tokenId]
    rfl
  · intro t hOwn
    rcases datasetsHandler_events cache now chain env tokenIds quoteHash with hev | hev | hev <;>
      rw [hev]
    · simp
    · exact purchase_not_mem_ownership_map t tokenIds
    · intro hmem
      rcases List.mem_append.mp hmem with h | h
      · exact purchase_not_mem_ownership_map t tokenIds h
      · refine processLoop_no_purchase env t _ ?_ h
        intro d hd hdt
        rw [resolveDatasets_spec] at hd
        replace hd : d ∈ tokenIds.map (pendingOf chain) := hd
        obtain ⟨s, hs, rfl⟩ := List.mem_map.mp hd
        rw [pendingOf_tokenId] at hdt
        rw [pendingOf_owned, hdt]
        exact hOwn

/-- Claim C3 witness: dataset 2 of `fixChain` is owned (positive balance);
its pending entry is marked owned and the trace purchases nothing for it. -/
theorem redeem_ownership_idempotent_witness :
    (pendingOf fixChain 2).owned =
      (decide (0 < fixChain.balanceOf (pendingOf fixChain 2).tokenId) ||
        fixChain.hasPurchased (pendingOf fixChain 2).tokenId)
    ∧ Event.purchase 2 ∉
        (datasetsHandler fixCache 0 fixChain fixEnv ⟨some [1, 2], some "q"⟩).2 :=
  ⟨(redeem_ownership_idempotent fixCache 0 fixChain fixEnv [1, 2] "q").1
      (pendingOf fixChain 2) (by decide),
   (redeem_ownership_idempotent fixCache 0 fixChain fixEnv [1, 2] "q").2 2 (by decide)⟩

/-- Claim C4: the quote lookup of a redemption succeeds only when the token
is in the cache and at most 10 seconds old; an absent token and an expired
token both fail the whole request with the identical quote-expired 400 and
an empty trace — before any ownership check, purchase or payload fetch. -/
theorem redeem_quote_validation (cache : QuoteCache) (now : Nat) (chain : Chain)
    (env : FulfillEnv) (tokenIds : List Nat) (quoteHash : String) :
    (cache quoteHash = none →
      datasetsHandler cache now chain env ⟨some tokenIds, some quoteHash⟩ =
        (.badRequest "Quote has expired. Please request a new quote.", []))
    ∧ (∀ q : QuoteEntry, cache quoteHash = some q → 10000 < now - q.timestamp →
        datasetsHandler cache now chain env ⟨some tokenIds, some quoteHash⟩ =
          (.badRequest "Quote has expired. Please request a new quote.", []))
    ∧ ((datasetsHandler cache now chain env ⟨some tokenIds, some quoteHash⟩).1 ≠
          .badRequest "Quote has expired. Please request a new quote." →
        ∃ q : QuoteEntry, cache quoteHash = some q ∧ now - q.timestamp ≤ 10000) := by
  refine ⟨?_, ?_, ?_⟩
  · intro h
    simp [datasetsHandler, redeemBody, h]
  · intro q hq ht
    simp [datasetsHandler, redeemBody, hq, ht]
  · intro h
    cases hc : cache quoteHash with
    | none => exact absurd (by simp [datasetsHandler, redeemBody, hc]) h
    | some q =>
      by_cases ht : 10000 < now - q.timestamp
      · exact absurd (by simp [datasetsHandler, redeemBody, hc, ht]) h
      · exact ⟨q, rfl, by omega⟩

/-- Claim C4 witness: an unknown hash and a 20.001-second-old quote are both
rejected identically, and a successful lookup exhibits a fresh cached entry. -/
theorem redeem_quote_validation_witness :
    datasetsHandler fixCacheEmpty 0 fixChain fixEnv ⟨some [1], some "q"⟩ =
      (.badRequest "Quote has expired. Please request a new quote.", [])
    ∧ datasetsHandler fixCache 20001 fixChain fixEnv ⟨some [1], some "q"⟩ =
      (.badRequest "Quote has expired. Please request a new quote.", [])
    ∧ ∃ q : QuoteEntry, fixCache "q" = some q ∧ 0 - q.timestamp ≤ 10000 :=
  ⟨(redeem_quote_validation fixCacheEmpty 0 fixChain fixEnv [1] "q").1 rfl,
   (redeem_quote_validation fixCache 20001 fixChain fixEnv [1] "q").2.1 fixQuoteEntry
     (by decide) (by decide),
   (redeem_quote_validation fixCache 0 fixChain fixEnv [1] "q").2.2 (by decide)⟩

/-- Claim C5 (counterexample): with two affordable unowned datasets, a
throw while submitting dataset 1's purchase does not yield a per-dataset
error — it aborts the entire request with a 500 carrying the raw error, and
the sibling dataset 2 is never fetched. -/
theorem purchase_failure_aborts_request_cex :
    (datasetsHandler fixCache 0 fixChainTwo fixEnvBoom ⟨some [1, 2], some "q"⟩).1 =
      .serverError "boom"
    ∧ Event.fetch 2 ∉
        (datasetsHandler fixCache 0 fixChainTwo fixEnvBoom ⟨some [1, 2], some "q"⟩).2 :=
  ⟨by decide, by decide⟩

/-- Claim C5 (amended): a purchase-phase failure (decrypt, submit or
confirmation wait) aborts the whole processing loop with that error rather
than being captured per-dataset; only a failure of the guarded fetch block
is recorded inline as that dataset's error entry, with every sibling still
receiving its own result. -/
theorem purchase_failure_aborts_fetch_failure_inline (env : FulfillEnv)
    (ds : List PendingDataset) :
    (∀ (l1 : List PendingDataset) (d : PendingDataset) (l2 : List PendingDataset) (e : String),
      ds = l1 ++ d :: l2 → (∀ d' ∈ l1, (purchasePhase env d').2 = none) →
      (purchasePhase env d).2 = some e → (processLoop env ds).abortError = some e)
    ∧ ((∀ d ∈ ds, (purchasePhase env d).2 = none) →
      (processLoop env ds).abortError = none ∧
      (processLoop env ds).results = ds.map (fetchOutcome env) ∧
      ∀ d ∈ ds, ∀ e : String, env.fetchResult d.ipfsHash = .error e →
        ProcResult.failure d.tokenId ("Failed to process dataset: " ++ e) (!d.owned) ∈
          (processLoop env ds).results) := by
  constructor
  · intro l1 d l2 e hds hall hd
    rw [hds]
    exact processLoop_abort env l1 d l2 e hall hd
  · intro hall
    obtain ⟨h1, h2⟩ := processLoop_results env ds hall
    refine ⟨h1, h2, ?_⟩
    intro d hd e he
    rw [h2]
    have hout : fetchOutcome env d =
        ProcResult.failure d.tokenId ("Failed to process dataset: " ++ e) (!d.owned) := by
      unfold fetchOutcome
      rw [he]
    rw [← hout]
    exact List.mem_map_of_mem _ hd

/-- Claim C5 (amended) witness: dataset 1's failing submission aborts the
loop with "boom"; a failing fetch instead yields dataset 1's inline error. -/
theorem purchase_failure_aborts_fetch_failure_inline_witness :
    (processLoop fixEnvBoom [fixPendingOne, fixPendingTwo]).abortError = some "boom"
    ∧ ProcResult.failure 1 ("Failed to process dataset: " ++ "no gateway")
        (!fixPendingOne.owned) ∈ (processLoop fixEnvFetchFail [fixPendingOne]).results :=
  ⟨(purchase_failure_aborts_fetch_failure_inline fixEnvBoom
      [fixPendingOne, fixPendingTwo]).1 [] fixPendingOne [fixPendingTwo] "boom" rfl
      (by simp) (by decide),
   ((purchase_failure_aborts_fetch_failure_inline fixEnvFetchFail [fixPendingOne]).2
      (by decide)).2.2 fixPendingOne (by decide) "no gateway" rfl⟩

/-- Claim C7 (counterexample): two redemptions differing only in the
transaction hash the ledger returns produce identical responses, including
the per-dataset outcome of the freshly purchased dataset — the outcome does
not contain the transaction hash. -/
theorem results_omit_transaction_hash_cex :
    fixEnvHashA.submitResult 1 1 = .ok "txhash-one"
    ∧ fixEnvHashB.submitResult 1 1 = .ok "txhash-two"
    ∧ fixEnvHashA.submitResult 1 1 ≠ fixEnvHashB.submitResult 1 1
    ∧ datasetsHandler fixCache 0 fixChainTwo fixEnvHashA ⟨some [1], some "q"⟩ =
        datasetsHandler fixCache 0 fixChainTwo fixEnvHashB ⟨some [1], some "q"⟩
    ∧ (datasetsHandler fixCache 0 fixChainTwo fixEnvHashA ⟨some [1], some "q"⟩).1 =
        .ok [.success 1 (.json ("payload of " ++ "ipfs1")) true none none] := by
  refine ⟨rfl, rfl, ?_, by decide, by decide⟩
  intro h
  exact absurd (Except.ok.inj h) (by decide)

/-- Claim C7 (amended) witness: concrete runs differing only in the
returned transaction hash have equal result lists. -/
theorem processLoop_results_congr_witness :
    (processLoop fixEnvHashA [fixPendingOne]).results =
      (processLoop fixEnvHashB [fixPendingOne]).results :=
  processLoop_results_congr fixEnvHashA fixEnvHashB rfl [fixPendingOne] (by decide)

/-- Claim C8 (counterexample): "secret" hashes to an active, never-expiring
row, yet because the last-used refresh throws, `validateApiKey` reports the
key invalid. -/
theorem validateApiKey_update_failure_cex :
    findApiKey fixKeyEnv.rows fixKeyEnv.now (fixKeyEnv.hashKey "secret") = some fixRow
    ∧ fixKeyEnv.updateLastUsed fixRow.id = .error "db down"
    ∧ validateApiKey fixKeyEnv "secret" = false :=
  ⟨by decide, rfl, by decide⟩

/-- Claim C8 (amended): when the hash matches an active, unexpired record,
the lookup reports the key valid exactly when both the last-used refresh and
the usage-log write succeed — a failure of either write makes
`validateApiKey` return false. -/
theorem validateApiKey_requires_writes (env : KeyStoreEnv) (apiKey : String) (row : DbApiKey)
    (hfind : findApiKey env.rows env.now (env.hashKey apiKey) = some row) :
    validateApiKey env apiKey =
      (exceptOk (env.updateLastUsed row.id) && exceptOk (env.logUsage (env.hashKey apiKey))) := by
  simp only [validateApiKey, hfind]
  cases hu : env.updateLastUsed row.id with
  | error e => simp [hu, exceptOk]
  | ok u =>
    cases hl : env.logUsage (env.hashKey apiKey) with
    | error e => simp [hu, hl, exceptOk]
    | ok v => simp [hu, hl, exceptOk]

/-- Claim C8 (amended) witness: with both writes succeeding the lookup
returns exactly the conjunction of their successes. -/
theorem validateApiKey_requires_writes_witness :
    validateApiKey fixKeyEnvOk "secret" =
      (exceptOk (fixKeyEnvOk.updateLastUsed fixRow.id) &&
        exceptOk (fixKeyEnvOk.logUsage (fixKeyEnvOk.hashKey "secret"))) :=
  validateApiKey_requires_writes fixKeyEnvOk "secret" fixRow (by decide)

/-- Claim C9: the redemption flow never consults the quoted dataset list —
two caches agreeing on the token's timestamp but quoting different lists
give identical responses — and every requested token id is resolved into the
processing batch, in order, regardless of the quote's content. -/
theorem redeem_ignores_quoted_list (cache1 cache2 : QuoteCache) (now : Nat) (chain : Chain)
    (env : FulfillEnv) (tokenIds : List Nat) (quoteHash : String) (q1 q2 : QuoteEntry)
    (h1 : cache1 quoteHash = some q1) (h2 : cache2 quoteHash = some q2)
    (ht : q1.timestamp = q2.timestamp) :
    datasetsHandler cache1 now chain env ⟨some tokenIds, some quoteHash⟩ =
      datasetsHandler cache2 now chain env ⟨some tokenIds, some quoteHash⟩
    ∧ (resolveDatasets chain tokenIds).datasets.map PendingDataset.tokenId = tokenIds := by
  constructor
  · simp [datasetsHandler, redeemBody, h1, h2, ht]
  · rw [resolveDatasets_spec]
    have hmap : ∀ ts : List Nat,
        List.map PendingDataset.tokenId (ts.map (pendingOf chain)) = ts := by
      intro ts
      induction ts with
      | nil => rfl
      | cons t ts ih => simp only [List.map_cons, pendingOf_tokenId, ih]
    exact hmap tokenIds

/-- Claim C9 witness: the same redemption against caches quoting different
dataset lists (same timestamp) is identical, and requested id 1 is resolved. -/
theorem redeem_ignores_quoted_list_witness :
    datasetsHandler fixCache 0 fixChain fixEnv ⟨some [1], some "q"⟩ =
      datasetsHandler fixCache2 0 fixChain fixEnv ⟨some [1], some "q"⟩
    ∧ (resolveDatasets fixChain [1]).datasets.map PendingDataset.tokenId = [1] :=
  redeem_ignores_quoted_list fixCache fixCache2 0 fixChain fixEnv [1] "q" fixQuoteEntry
    ⟨0, []⟩ (by decide) (by decide) rfl

/-- Claim C10: a presented key whose hash matches an active, unexpired
record that lacks any of the four wallet fields is rejected with 401
"Invalid API key" on both the datasets and the quote route, with an empty
trace and an untouched cache — the handler logic is never reached. -/
theorem missing_wallet_material_rejected (rows : List DbApiKey) (now : Nat)
    (hashKey : String → String) (apiKey : String) (kd : DbApiKey)
    (cache : QuoteCache) (chain : Chain) (env : FulfillEnv) (req : DatasetsRequest)
    (newHash : String) (searchParam : Option String)
    (hfind : findApiKey rows now (hashKey apiKey) = some kd)
    (hmiss : strTruthy kd.publicKey = false ∨ strTruthy kd.encryptedPrivateKey = false ∨
      strTruthy kd.keyPairIV = false ∨ strTruthy kd.keyPairAuthTag = false) :
    datasetsRoute rows now hashKey (some apiKey) cache chain env req =
      (.unauthorized "Invalid API key", [])
    ∧ quoteRoute rows now hashKey (some apiKey) chain newHash cache searchParam =
      (.unauthorized "Invalid API key", cache) := by
  have hcond : (strTruthy kd.publicKey && strTruthy kd.encryptedPrivateKey &&
      strTruthy kd.keyPairIV && strTruthy kd.keyPairAuthTag) = false := by
    rcases hmiss with h | h | h | h <;> simp [h]
  have hmw : validateApiKeyMiddleware rows now hashKey (some apiKey) =
      .unauthorized "Invalid API key" := by
    simp [validateApiKeyMiddleware, hfind, hcond]
  exact ⟨by simp [datasetsRoute, hmw], by simp [quoteRoute, hmw]⟩

/-- Claim C10 witness: an active row with no stored publicKey is rejected
401 on both routes. -/
theorem missing_wallet_material_rejected_witness :
    datasetsRoute [fixRowNoWallet] 0 fixHash (some "secret") fixCache fixChain fixEnv
        ⟨some [1], some "q"⟩ = (.unauthorized "Invalid API key", [])
    ∧ quoteRoute [fixRowNoWallet] 0 fixHash (some "secret") fixChain "newq" fixCache
        (some "finance") = (.unauthorized "Invalid API key", fixCache) :=
  missing_wallet_material_rejected [fixRowNoWallet] 0 fixHash "secret" fixRowNoWallet
    fixCache fixChain fixEnv ⟨some [1], some "q"⟩ "newq" (some "finance")
    (by decide) (Or.inl (by decide))

end Harbor
